import Mathlib

/-!
Verification development for the melody codec and model-export serializer
of `train.py`.

The melody codec (`streamToNoteArray`, `noteArrayToDataFrame`) and the
export serializer (`compressConfig`, the weight-packing loop and the JSON
assembly of `get_model_for_export`) are shallowly embedded below.  Times
are modelled as rationals; `np.round` is modelled as round-half-to-even on
rationals (the reference rounding behaviour).  Fallible steps of the
Python code (numpy `IndexError` on a bad index, `KeyError` on a missing
dict key, `ValueError` from `float()` on a non-numeric value) are modelled
with `Except String`.
-/

/-- Melody-RNN code for "stop playing all previous notes" (value 128). -/
def MELODY_NOTE_OFF : ℕ := 128

/-- Melody-RNN code for "no change from previous event" (value 129). -/
def MELODY_NO_EVENT : ℕ := 129

/-- A pitched event of the input timeline, as extracted from the music21
stream: onset and duration in quarter-note beats, MIDI pitch.  A chord is
already collapsed to one entry carrying its highest pitch, exactly as the
two branches of the extraction loop of `streamToNoteArray` do. -/
structure TimedNote where
  offset : ℚ
  dur : ℚ
  pitch : ℕ
deriving DecidableEq, Repr

/-- Round-half-to-even on rationals: the reference behaviour of
`np.round` on the tick values of `streamToNoteArray`. -/
def roundHalfEven (q : ℚ) : ℤ :=
  if Int.fract q < 1/2 then ⌊q⌋
  else if 1/2 < Int.fract q then ⌊q⌋ + 1
  else if ⌊q⌋ % 2 = 0 then ⌊q⌋ else ⌊q⌋ + 1

/-- The sixteenth-note grid unit: 0.25 quarter-note beats. -/
def gridUnit : ℚ := 1/4

/-- `np.round(value / 0.25)`: quantization of a beat value to grid ticks. -/
def quantize (v : ℚ) : ℤ := roundHalfEven (v / gridUnit)

/-- A quantized note: `[np.round(offset/0.25), np.round(quarterLength/0.25),
pitch]`, one row of `stream_list`. -/
structure QNote where
  pos : ℤ
  dur : ℤ
  pitch : ℕ
deriving DecidableEq, Repr

/-- Quantization of one timeline element into a `stream_list` row. -/
def toQNote (n : TimedNote) : QNote :=
  ⟨quantize n.offset, quantize n.dur, n.pitch⟩

/-- The `stream_list` built by the extraction loop, in stream order. -/
def qnotes (tl : List TimedNote) : List QNote := tl.map toQNote

/-- `stream.flat.highestTime`: the largest end time (offset plus duration)
over all elements, `0` for an empty stream. -/
def highestTime (tl : List TimedNote) : ℚ :=
  tl.foldl (fun a n => max a (n.offset + n.dur)) 0

/-- `total_length = np.int(np.round(stream.flat.highestTime / 0.25))`. -/
def totalTicks (tl : List TimedNote) : ℕ :=
  (quantize (highestTime tl)).toNat

lemma totalTicks_eq {tl : List TimedNote} {n : ℕ}
    (h : quantize (highestTime tl) = (n : ℤ)) : totalTicks tl = n := by
  simp [totalTicks, h]

/-- The row `df[df.pos == i].iloc[0]` after the sort on
`['pos', 'pitch']` (ascending, descending): the first element with the
highest pitch among a list of candidate rows. -/
def pickHighest : List QNote → Option QNote
  | [] => none
  | n :: rest =>
    match pickHighest rest with
    | none => some n
    | some m => if n.pitch < m.pitch then some m else some n

/-- The note retained at tick `p` after `drop_duplicates(subset=['pos'])`:
the highest-pitched `stream_list` row whose quantized position is `p`. -/
def retainedAt (qs : List QNote) (p : ℤ) : Option QNote :=
  pickHighest (qs.filter (fun n => n.pos = p))

/-- numpy assignment `arr[j] = v` with an integer index: indices in
`[0, len)` write directly, indices in `[-len, 0)` wrap around, and any
other index raises `IndexError`. -/
def npSet (arr : List ℕ) (j : ℤ) (v : ℕ) : Except String (List ℕ) :=
  if 0 ≤ j ∧ j < (arr.length : ℤ) then .ok (arr.set j.toNat v)
  else if -(arr.length : ℤ) ≤ j ∧ j < 0 then .ok (arr.set (j + arr.length).toNat v)
  else .error "IndexError: note off index out of bounds"

/-- One iteration of the fill loop of `streamToNoteArray`: if a retained
note starts at tick `i`, write its pitch at `i` and `MELODY_NOTE_OFF` at
`i + dur`. -/
def fillStep (qs : List QNote) (arr : List ℕ) (i : ℕ) : Except String (List ℕ) :=
  match retainedAt qs (i : ℤ) with
  | none => .ok arr
  | some n => npSet (arr.set i n.pitch) ((i : ℤ) + n.dur) MELODY_NOTE_OFF

/-- The fill loop `for i in range(total_length)`, run over an explicit
list of tick indices. -/
def fillRange (qs : List QNote) : List ℕ → List ℕ → Except String (List ℕ)
  | [], arr => .ok arr
  | i :: rest, arr =>
    match fillStep qs arr i with
    | .ok arr2 => fillRange qs rest arr2
    | .error e => .error e

/-- The melody encoder `streamToNoteArray`.  An empty timeline leaves
`stream_list` empty, and `np_stream_list.T[0]` on the resulting
`(0,)`-shaped array raises `IndexError`; otherwise the output array of
length `totalTicks + 1` starts filled with `MELODY_NO_EVENT` and the fill
loop writes note-on and note-off codes. -/
def streamToNoteArray (tl : List TimedNote) : Except String (List ℕ) :=
  match tl with
  | [] => .error "IndexError: empty stream list"
  | _ :: _ =>
    fillRange (qnotes tl) (List.range (totalTicks tl))
      (List.replicate (totalTicks tl + 1) MELODY_NO_EVENT)

/-- The rows surviving `df = df[df.code != MELODY_NO_EVENT]` in
`noteArrayToDataFrame`, as (original index, code) pairs in order. -/
def retainedEvents (arr : List ℕ) : List (ℕ × ℕ) :=
  arr.enum.filter (fun p => p.2 ≠ MELODY_NO_EVENT)

/-- `df.duration.diff(-1) * -1 * 0.25` followed by `fillna(0.25)`:
row `i` gets `(index[i+1] - index[i]) * 0.25`, the final row `0.25`. -/
def rowsWithDur : List (ℕ × ℕ) → List (ℕ × ℚ)
  | [] => []
  | [(_, c)] => [(c, 1/4)]
  | (i, c) :: (j, d) :: rest =>
    (c, ((j : ℚ) - (i : ℚ)) * (1/4)) :: rowsWithDur ((j, d) :: rest)

/-- The melody decoder `noteArrayToDataFrame`: the returned
`df[['code', 'duration']]` as a list of (code, duration) rows. -/
def noteArrayToDataFrame (arr : List ℕ) : List (ℕ × ℚ) :=
  rowsWithDur (retainedEvents arr)

/-- A JSON value, as produced by `json.loads(model.to_json())` and written
by `json.dump`. -/
inductive Json where
  | str (s : String)
  | num (q : ℚ)
  | bool (b : Bool)
  | null
  | arr (elems : List Json)
  | obj (members : List (String × Json))

/-- Key lookup in a JSON object; `none` on a non-object or missing key. -/
def jLookup (j : Json) (k : String) : Option Json :=
  match j with
  | Json.obj kvs => (kvs.find? (fun kv => kv.1 == k)).map (fun kv => kv.2)
  | _ => none

/-- The ordered key list of a JSON object. -/
def objKeys (j : Json) : Option (List String) :=
  match j with
  | Json.obj kvs => some (kvs.map (fun kv => kv.1))
  | _ => none

/-- One element of `data["config"]["layers"]`: its `class_name` string and
its `config` dict (present on every layer emitted by `model.to_json()`;
the Python reads both unconditionally). -/
structure FullLayer where
  class_name : String
  config : List (String × Json)

/-- Python dict subscription `cfg[k]`: the value, or a `KeyError`. -/
def dget (cfg : List (String × Json)) (k : String) : Except String Json :=
  match cfg.find? (fun kv => kv.1 == k) with
  | some kv => .ok kv.2
  | none => .error ("KeyError: " ++ k)

/-- The body of the `for layer in data["config"]["layers"]` loop of
`compressConfig`: the `elif` chain on `class_name` builds the whitelisted
`layer_config` dict (`none` for an unrecognized kind), and the resulting
entry carries `config` only when `layer_config` is not `None`
(`cfg` below stands for the alias `cfg = layer["config"]`). -/
def compressLayer (layer : FullLayer) : Except String Json := do
  let layer_config : Option (List (String × Json)) ←
    if layer.class_name = "InputLayer" then do
      let bis ← dget layer.config "batch_input_shape"
      pure (some [("batch_input_shape", bis)])
    else if layer.class_name = "Rescaling" then do
      let sc ← dget layer.config "scale"
      let off ← dget layer.config "offset"
      pure (some [("scale", sc), ("offset", off)])
    else if layer.class_name = "Dense" then do
      let u ← dget layer.config "units"
      let a ← dget layer.config "activation"
      pure (some [("units", u), ("activation", a)])
    else if layer.class_name = "Conv2D" then do
      let f ← dget layer.config "filters"
      let ks ← dget layer.config "kernel_size"
      let st ← dget layer.config "strides"
      let a ← dget layer.config "activation"
      let pd ← dget layer.config "padding"
      pure (some [("filters", f), ("kernel_size", ks), ("strides", st),
        ("activation", a), ("padding", pd)])
    else if layer.class_name = "MaxPooling2D" then do
      let ps ← dget layer.config "pool_size"
      let st ← dget layer.config "strides"
      let pd ← dget layer.config "padding"
      pure (some [("pool_size", ps), ("strides", st), ("padding", pd)])
    else if layer.class_name = "Embedding" then do
      let idim ← dget layer.config "input_dim"
      let odim ← dget layer.config "output_dim"
      pure (some [("input_dim", idim), ("output_dim", odim)])
    else if layer.class_name = "SimpleRNN" then do
      let u ← dget layer.config "units"
      let a ← dget layer.config "activation"
      pure (some [("units", u), ("activation", a)])
    else if layer.class_name = "LSTM" then do
      let u ← dget layer.config "units"
      let a ← dget layer.config "activation"
      let ra ← dget layer.config "recurrent_activation"
      pure (some [("units", u), ("activation", a), ("recurrent_activation", ra)])
    else pure none
  match layer_config with
  | some c => pure (Json.obj [("class_name", Json.str layer.class_name),
      ("config", Json.obj c)])
  | none => pure (Json.obj [("class_name", Json.str layer.class_name)])

/-- `compressConfig`.  The input is the list `data["config"]["layers"]` of
the full model JSON; the return value is the dict
`{"config": {"layers": layers}}` built at the end of the function. -/
def compressConfig (layers : List FullLayer) : Except String Json := do
  let compressed ← layers.mapM compressLayer
  pure (Json.obj [("config", Json.obj [("layers", Json.arr compressed)])])

/-- A Python value appearing inside a weight tensor: a finite float
(carried as the rational it denotes), a non-finite float, or a value that
`float()` cannot convert. -/
inductive PyVal where
  | fin (q : ℚ)
  | nan
  | inf
  | ninf
  | nonNumeric
deriving DecidableEq, Repr

/-- Python `float(i)`: the identity on every float (`nan` and the
infinities included), a `ValueError` on a non-numeric value. -/
def floatConv (v : PyVal) : Except String PyVal :=
  match v with
  | .nonNumeric => .error "ValueError: could not convert to float"
  | x => .ok x

/-- Row-major flattening of the per-layer parameter groups: every value of
every group of every layer, in model order then group order then row-major
element order — the iteration order of the nested packing loops. -/
def flattenWeights (weights : List (List (List PyVal))) : List PyVal :=
  (weights.map List.flatten).flatten

/-- The weight-packing loop of `get_model_for_export` (lines building
`weight_bytes`).  Each successfully converted value is appended to the
buffer; each entry of the result stands for the 4 bytes
`struct.pack("@f", float(i))` (the byte-level IEEE-754 encoding itself is
not modelled).  `struct.pack` never fails on a float, so the only failure
is `float()` on a non-numeric value. -/
def packWeights (weights : List (List (List PyVal))) : Except String (List PyVal) :=
  (flattenWeights weights).mapM floatConv

/-- `get_model_for_export`: pack the weights, compress the config, and
assemble the artifact dict
`{"model_name": "musicnetgen", "layers_config": compressed_config,
"weight_b64": weight_base64}` that `json.dump` writes.  `b64` stands for
`base64.b64encode(...).decode()` on the packed buffer; its byte-level
definition is outside the model, so it is passed as a parameter. -/
def get_model_for_export (weights : List (List (List PyVal)))
    (layers : List FullLayer) (b64 : List PyVal → String) :
    Except String Json := do
  let buf ← packWeights weights
  let compressed ← compressConfig layers
  pure (Json.obj [("model_name", Json.str "musicnetgen"),
    ("layers_config", compressed),
    ("weight_b64", Json.str (b64 buf))])


/-! ### Generic `Except` helpers -/

lemma exc_bind_eq_ok {ε α β : Type} {x : Except ε α} {f : α → Except ε β} {b : β}
    (h : (x >>= f) = .ok b) : ∃ a, x = .ok a ∧ f a = .ok b := by
  cases x with
  | ok a => exact ⟨a, rfl, h⟩
  | error e => exact Except.noConfusion h

/-! ### Fill-loop lemmas for the encoder -/

lemma pickHighest_mem {xs : List QNote} {n : QNote}
    (h : pickHighest xs = some n) : n ∈ xs := by
  induction xs with
  | nil => exact Option.noConfusion h
  | cons x rest ih =>
    unfold pickHighest at h
    cases hr : pickHighest rest with
    | none =>
      simp only [hr] at h
      injection h with h
      subst h
      exact List.mem_cons_self x rest
    | some m =>
      simp only [hr] at h
      by_cases hlt : x.pitch < m.pitch
      · rw [if_pos hlt] at h
        injection h with h
        subst h
        exact List.mem_cons_of_mem _ (ih hr)
      · rw [if_neg hlt] at h
        injection h with h
        subst h
        exact List.mem_cons_self _ _

lemma retainedAt_mem {qs : List QNote} {p : ℤ} {n : QNote}
    (h : retainedAt qs p = some n) : n ∈ qs ∧ n.pos = p := by
  have hm := pickHighest_mem h
  have hf := List.mem_filter.mp hm
  exact ⟨hf.1, by simpa using hf.2⟩

lemma npSet_ok_length {arr out : List ℕ} {j : ℤ} {v : ℕ}
    (h : npSet arr j v = .ok out) : out.length = arr.length := by
  unfold npSet at h
  split at h
  · injection h with h
    subst h
    simp
  · split at h
    · injection h with h
      subst h
      simp
    · exact Except.noConfusion h

lemma fillStep_ok_length {qs : List QNote} {arr out : List ℕ} {i : ℕ}
    (h : fillStep qs arr i = .ok out) : out.length = arr.length := by
  unfold fillStep at h
  split at h
  · injection h with h
    subst h
    rfl
  · simpa using npSet_ok_length h

lemma fillRange_ok_length {qs : List QNote} {ticks : List ℕ} {arr out : List ℕ}
    (h : fillRange qs ticks arr = .ok out) : out.length = arr.length := by
  induction ticks generalizing arr with
  | nil =>
    injection h with h
    subst h
    rfl
  | cons i rest ih =>
    cases hstep : fillStep qs arr i with
    | ok arr2 =>
      simp only [fillRange, hstep] at h
      exact (ih h).trans (fillStep_ok_length hstep)
    | error e =>
      simp only [fillRange, hstep] at h
      exact Except.noConfusion h

lemma fillStep_preserves {qs : List QNote} {arr out : List ℕ} {i p : ℕ}
    (hdur : ∀ m ∈ qs, 0 ≤ m.dur) (hpi : p < i)
    (h : fillStep qs arr i = .ok out) : out.get? p = arr.get? p := by
  unfold fillStep at h
  split at h
  next =>
    injection h with h
    subst h
    rfl
  next n hn =>
    have hd : 0 ≤ n.dur := hdur n (retainedAt_mem hn).1
    unfold npSet at h
    split at h
    next hcond =>
      injection h with h
      subst h
      rw [List.get?_set_ne _ _ (by omega), List.get?_set_ne _ _ (by omega)]
    next =>
      split at h
      next hcond2 =>
        exfalso
        omega
      next => exact Except.noConfusion h

lemma fillRange_preserves {qs : List QNote} {ticks : List ℕ} {arr out : List ℕ} {p : ℕ}
    (hdur : ∀ m ∈ qs, 0 ≤ m.dur) (hp : ∀ i ∈ ticks, p < i)
    (h : fillRange qs ticks arr = .ok out) : out.get? p = arr.get? p := by
  induction ticks generalizing arr with
  | nil =>
    injection h with h
    subst h
    rfl
  | cons i rest ih =>
    cases hstep : fillStep qs arr i with
    | ok arr2 =>
      simp only [fillRange, hstep] at h
      have h1 := ih (fun j hj => hp j (List.mem_cons_of_mem _ hj)) h
      rw [h1, fillStep_preserves hdur (hp i (List.mem_cons_self _ _)) hstep]
    | error e =>
      simp only [fillRange, hstep] at h
      exact Except.noConfusion h

lemma fillRange_append {qs : List QNote} {l1 l2 : List ℕ} {arr out : List ℕ}
    (h : fillRange qs (l1 ++ l2) arr = .ok out) :
    ∃ mid, fillRange qs l1 arr = .ok mid ∧ fillRange qs l2 mid = .ok out := by
  induction l1 generalizing arr with
  | nil => exact ⟨arr, rfl, h⟩
  | cons i rest ih =>
    rw [List.cons_append] at h
    cases hstep : fillStep qs arr i with
    | ok arr2 =>
      simp only [fillRange, hstep] at h ⊢
      exact ih h
    | error e =>
      simp only [fillRange, hstep] at h
      exact Except.noConfusion h

lemma fillStep_self_pos {qs : List QNote} {arr out : List ℕ} {t : ℕ} {n : QNote}
    (hr : retainedAt qs (t : ℤ) = some n) (ht : t < arr.length) (hd : 1 ≤ n.dur)
    (h : fillStep qs arr t = .ok out) : out.get? t = some n.pitch := by
  unfold fillStep at h
  simp only [hr] at h
  unfold npSet at h
  split at h
  next hcond =>
    injection h with h
    subst h
    rw [List.get?_set_ne _ _ (by omega)]
    exact List.get?_set_eq_of_lt _ ht
  next =>
    split at h
    next hcond2 =>
      exfalso
      omega
    next => exact Except.noConfusion h

lemma fillStep_self_zero {qs : List QNote} {arr out : List ℕ} {t : ℕ} {n : QNote}
    (hr : retainedAt qs (t : ℤ) = some n) (ht : t < arr.length) (hd : n.dur = 0)
    (h : fillStep qs arr t = .ok out) : out.get? t = some MELODY_NOTE_OFF := by
  unfold fillStep at h
  simp only [hr] at h
  unfold npSet at h
  split at h
  next hcond =>
    injection h with h
    subst h
    have hto : ((t : ℤ) + n.dur).toNat = t := by omega
    rw [hto]
    exact List.get?_set_eq_of_lt _ (by simpa using ht)
  next hncond =>
    exfalso
    have hlen : (arr.set t n.pitch).length = arr.length := by simp
    rw [hlen] at hncond
    omega

/-- After a successful encode, the value at a tick `t < totalTicks` that
holds a retained note is determined by that note's quantized duration:
`MELODY_NOTE_OFF` when it is 0 (the note-off overwrite), the note's pitch
when it is at least one tick. -/
lemma encode_at_tick {tl : List TimedNote} {t : ℕ} {n : QNote} {arr : List ℕ}
    (hdur : ∀ m ∈ qnotes tl, 0 ≤ m.dur)
    (hr : retainedAt (qnotes tl) (t : ℤ) = some n)
    (ht : t < totalTicks tl)
    (h : streamToNoteArray tl = .ok arr) :
    (n.dur = 0 → arr.get? t = some MELODY_NOTE_OFF) ∧
    (1 ≤ n.dur → arr.get? t = some n.pitch) := by
  cases tl with
  | nil => exact Except.noConfusion h
  | cons hd0 tl0 =>
    rw [streamToNoteArray] at h
    obtain ⟨k, hk⟩ : ∃ k, totalTicks (hd0 :: tl0) = (t + 1) + k :=
      ⟨totalTicks (hd0 :: tl0) - (t + 1), by omega⟩
    rw [hk, List.range_add, List.range_succ] at h
    obtain ⟨mid1, hmid1, hrest⟩ := fillRange_append h
    obtain ⟨mid0, hmid0, hstep1⟩ := fillRange_append hmid1
    have hlen0 : mid0.length = (t + 1) + k + 1 := by
      have := fillRange_ok_length hmid0
      simpa [hk] using this
    have htlt : t < mid0.length := by omega
    have hframe : arr.get? t = mid1.get? t := by
      refine fillRange_preserves hdur ?_ hrest
      intro i hi
      obtain ⟨x, _, hx⟩ := List.mem_map.mp hi
      omega
    cases hstep : fillStep (qnotes (hd0 :: tl0)) mid0 t with
    | ok arr2 =>
      simp only [fillRange, hstep] at hstep1
      injection hstep1 with hstep1
      subst hstep1
      constructor
      · intro hz
        rw [hframe]
        exact fillStep_self_zero hr htlt hz hstep
      · intro h1
        rw [hframe]
        exact fillStep_self_pos hr htlt h1 hstep
    | error e =>
      simp only [fillRange, hstep] at hstep1
      exact Except.noConfusion hstep1

/-! ### Decoder lemmas -/

lemma rowsWithDur_get : ∀ (l : List (ℕ × ℕ)) (i : ℕ) (r : ℕ × ℚ),
    (rowsWithDur l).get? i = some r →
    (∃ a b, l.get? i = some a ∧ l.get? (i + 1) = some b ∧
        r = (a.2, ((b.1 : ℚ) - (a.1 : ℚ)) * (1/4)))
    ∨ (∃ a, l.get? i = some a ∧ l.get? (i + 1) = none ∧ r = (a.2, 1/4)) := by
  intro l
  induction l with
  | nil =>
    intro i r h
    simp [rowsWithDur] at h
  | cons a tail ih =>
    obtain ⟨ai, ac⟩ := a
    intro i r h
    cases tail with
    | nil =>
      cases i with
      | zero =>
        simp only [rowsWithDur, List.get?_cons_zero, Option.some.injEq] at h
        right
        exact ⟨(ai, ac), rfl, rfl, h.symm⟩
      | succ k =>
        simp [rowsWithDur] at h
    | cons b rest =>
      obtain ⟨bi, bc⟩ := b
      cases i with
      | zero =>
        simp only [rowsWithDur, List.get?_cons_zero, Option.some.injEq] at h
        left
        exact ⟨(ai, ac), (bi, bc), rfl, rfl, h.symm⟩
      | succ k =>
        have h2 : (rowsWithDur ((bi, bc) :: rest)).get? k = some r := by
          simpa [rowsWithDur] using h
        rcases ih k r h2 with ⟨x, y, hx, hy, hr⟩ | ⟨x, hx, hy, hr⟩
        · exact Or.inl ⟨x, y, by simpa using hx, by simpa using hy, hr⟩
        · exact Or.inr ⟨x, by simpa using hx, by simpa using hy, hr⟩

lemma retainedEvents_pairwise (arr : List ℕ) :
    (retainedEvents arr).Pairwise (fun a b => a.1 < b.1) := by
  have h1 : (arr.enum.map Prod.fst).Pairwise (· < ·) := by
    rw [List.enum_map_fst]
    exact List.pairwise_lt_range _
  have henum : arr.enum.Pairwise (fun a b => a.1 < b.1) := List.pairwise_map.mp h1
  exact henum.sublist (List.filter_sublist _)

lemma rowsWithDur_pos : ∀ (l : List (ℕ × ℕ)),
    l.Pairwise (fun a b => a.1 < b.1) →
    ∀ r ∈ rowsWithDur l, (1/4 : ℚ) ≤ r.2 ∧ ∃ k : ℕ, 0 < k ∧ r.2 = (k : ℚ) * (1/4) := by
  intro l
  induction l with
  | nil =>
    intro _ r hr
    simp [rowsWithDur] at hr
  | cons a tail ih =>
    obtain ⟨ai, ac⟩ := a
    intro hp r hr
    cases tail with
    | nil =>
      simp only [rowsWithDur, List.mem_singleton] at hr
      subst hr
      exact ⟨le_refl _, 1, Nat.one_pos, by norm_num⟩
    | cons b rest =>
      obtain ⟨bi, bc⟩ := b
      obtain ⟨ha, hp'⟩ := List.pairwise_cons.mp hp
      have hab : ai < bi := ha (bi, bc) (List.mem_cons_self _ _)
      simp only [rowsWithDur, List.mem_cons] at hr
      rcases hr with hr | hr
      · subst hr
        have h1 : (1 : ℚ) ≤ (bi : ℚ) - (ai : ℚ) := by
          have : ((ai + 1 : ℕ) : ℚ) ≤ (bi : ℚ) := by exact_mod_cast hab
          push_cast at this
          linarith
        constructor
        · have := mul_le_mul_of_nonneg_right h1 (by norm_num : (0 : ℚ) ≤ 1/4)
          simpa using this
        · refine ⟨bi - ai, by omega, ?_⟩
          rw [Nat.cast_sub hab.le]
      · exact ih hp' r hr

/-! ### Spec-side key whitelist for the config compressor -/

/-- Modelled from the spec: the parameter keys documented for each of the
eight recognized layer kinds (spec sections 3, 4.4 and 6); `none` for an
unrecognized kind, whose entry must carry no `config` key at all. -/
def specParamKeys (kind : String) : Option (List String) :=
  if kind = "InputLayer" then some ["batch_input_shape"]
  else if kind = "Rescaling" then some ["scale", "offset"]
  else if kind = "Dense" then some ["units", "activation"]
  else if kind = "Conv2D" then
    some ["filters", "kernel_size", "strides", "activation", "padding"]
  else if kind = "MaxPooling2D" then some ["pool_size", "strides", "padding"]
  else if kind = "Embedding" then some ["input_dim", "output_dim"]
  else if kind = "SimpleRNN" then some ["units", "activation"]
  else if kind = "LSTM" then some ["units", "activation", "recurrent_activation"]
  else none

/-! ### Weight packer lemmas -/

lemma mapM_floatConv_ok {l : List PyVal} (h : ∀ v ∈ l, v ≠ PyVal.nonNumeric) :
    l.mapM floatConv = .ok l := by
  induction l with
  | nil => rfl
  | cons x rest ih =>
    have hx : floatConv x = .ok x := by
      cases x <;> first
        | rfl
        | exact absurd rfl (h _ (List.mem_cons_self _ _))
    have hrest := ih (fun v hv => h v (List.mem_cons_of_mem _ hv))
    rw [List.mapM_cons, hx, hrest]
    rfl

/-! ### Claim theorems -/

/-- Claim C2 (code_bug evidence): on the empty timeline the encoder does
not return the single-element array `[NO_EVENT]` the spec promises; the
empty `stream_list` makes `np_stream_list.T[0]` raise `IndexError`. -/
theorem encode_empty_timeline_raises :
    streamToNoteArray [] = .error "IndexError: empty stream list" := rfl

/-- Claim C3 (code_bug evidence): the single note with onset 9/40 and
duration 2/5 quarter beats quantizes to position 1, duration 2, while the
rounded total length is 2; the NOTE_OFF write targets index 3 of the
length-3 output array, and the unguarded `output[i + n.dur] = 128` raises
`IndexError` instead of clamping or extending. -/
theorem encode_note_off_write_out_of_bounds :
    streamToNoteArray [⟨9/40, 2/5, 60⟩] =
      .error "IndexError: note off index out of bounds" := by
  have hq : qnotes [⟨9/40, 2/5, 60⟩] = [⟨1, 2, 60⟩] := by
    norm_num [qnotes, toQNote, quantize, gridUnit, roundHalfEven, Int.fract]
  have ht : totalTicks [⟨9/40, 2/5, 60⟩] = 2 :=
    totalTicks_eq (by norm_num [highestTime, quantize, gridUnit, roundHalfEven, Int.fract, max_def])
  simp only [streamToNoteArray, hq, ht]
  rfl

/-- Claim C4, counterexample: a parameter group containing NaN does not
make the packer fail with any error — it succeeds and appends the NaN
encoding to the buffer, refuting the claimed `InvalidWeightDataError`. -/
theorem pack_nan_succeeds :
    packWeights [[[PyVal.nan]]] = .ok [PyVal.nan] := rfl

/-- Claim C4 as amended: the packer performs no finiteness check; any
input whose values are all numeric (finite or not) succeeds, producing the
flattened value sequence (one 4-byte float encoding per value), and in
particular all-finite inputs succeed. -/
theorem pack_all_numeric_succeeds (weights : List (List (List PyVal)))
    (h : ∀ v ∈ flattenWeights weights, v ≠ PyVal.nonNumeric) :
    packWeights weights = .ok (flattenWeights weights) :=
  mapM_floatConv_ok h

/-- Witness for `pack_all_numeric_succeeds` at a concrete input holding a
finite value, a NaN and an infinity. -/
theorem pack_all_numeric_succeeds_witness :
    packWeights [[[PyVal.fin 1, PyVal.nan]], [[PyVal.inf]]] =
      .ok (flattenWeights [[[PyVal.fin 1, PyVal.nan]], [[PyVal.inf]]]) :=
  pack_all_numeric_succeeds [[[PyVal.fin 1, PyVal.nan]], [[PyVal.inf]]] (by decide)

/-- Claim C5: the three-note example timeline (0,1,60), (1,1,62), (2,1,64)
in quarter-note units encodes to the documented length-13 array. -/
theorem encode_three_note_example :
    streamToNoteArray [⟨0, 1, 60⟩, ⟨1, 1, 62⟩, ⟨2, 1, 64⟩] =
      .ok [60, 129, 129, 129, 62, 129, 129, 129, 64, 129, 129, 129, 128] := by
  have hq : qnotes [⟨0, 1, 60⟩, ⟨1, 1, 62⟩, ⟨2, 1, 64⟩] =
      [⟨0, 4, 60⟩, ⟨4, 4, 62⟩, ⟨8, 4, 64⟩] := by
    norm_num [qnotes, toQNote, quantize, gridUnit, roundHalfEven, Int.fract]
  have ht : totalTicks [⟨0, 1, 60⟩, ⟨1, 1, 62⟩, ⟨2, 1, 64⟩] = 12 :=
    totalTicks_eq (by norm_num [highestTime, quantize, gridUnit, roundHalfEven, Int.fract, max_def])
  simp only [streamToNoteArray, hq, ht]
  rfl

/-- Claim C6: a retained note whose quantized duration is 0 ticks leaves
`MELODY_NOTE_OFF`, not its pitch, at its onset tick — the pitch is written
first and immediately overwritten by the NOTE_OFF at onset + 0. -/
theorem zero_duration_note_encodes_note_off
    (tl : List TimedNote) (t : ℕ) (n : QNote) (arr : List ℕ)
    (hdur : ∀ m ∈ qnotes tl, 0 ≤ m.dur)
    (hr : retainedAt (qnotes tl) (t : ℤ) = some n)
    (hz : n.dur = 0)
    (ht : t < totalTicks tl)
    (h : streamToNoteArray tl = .ok arr) :
    arr.get? t = some MELODY_NOTE_OFF ∧
      (n.pitch ≠ MELODY_NOTE_OFF → arr.get? t ≠ some n.pitch) := by
  have h128 := (encode_at_tick hdur hr ht h).1 hz
  refine ⟨h128, fun hp hcontra => ?_⟩
  rw [h128] at hcontra
  injection hcontra with hc
  exact hp hc.symm

/-- Witness for `zero_duration_note_encodes_note_off`: the timeline
(0,0,60), (1,1,62) retains a 0-tick note at tick 0 and the encoded array
holds NOTE_OFF there. -/
theorem zero_duration_note_encodes_note_off_witness :
    ([128, 129, 129, 129, 62, 129, 129, 129, 128] : List ℕ).get? 0 =
        some MELODY_NOTE_OFF ∧
      ((⟨0, 0, 60⟩ : QNote).pitch ≠ MELODY_NOTE_OFF →
        ([128, 129, 129, 129, 62, 129, 129, 129, 128] : List ℕ).get? 0 ≠
          some (⟨0, 0, 60⟩ : QNote).pitch) := by
  have hq : qnotes [⟨0, 0, 60⟩, ⟨1, 1, 62⟩] = [⟨0, 0, 60⟩, ⟨4, 4, 62⟩] := by
    norm_num [qnotes, toQNote, quantize, gridUnit, roundHalfEven, Int.fract]
  have htt : totalTicks [⟨0, 0, 60⟩, ⟨1, 1, 62⟩] = 8 :=
    totalTicks_eq (by norm_num [highestTime, quantize, gridUnit, roundHalfEven, Int.fract, max_def])
  refine zero_duration_note_encodes_note_off [⟨0, 0, 60⟩, ⟨1, 1, 62⟩] 0 ⟨0, 0, 60⟩ _
    ?_ ?_ rfl ?_ ?_
  · rw [hq]
    decide
  · rw [hq]
    decide
  · rw [htt]
    decide
  · simp only [streamToNoteArray, hq, htt]
    rfl

/-- Claim C9 as amended: when an earlier retained note's NOTE_OFF tick
coincides with a later retained note's onset tick, the later note's pitch
wins at that tick provided its quantized duration is at least one tick
(a 0-tick later note instead shows NOTE_OFF, per the degenerate-duration
rule). -/
theorem later_onset_wins_at_coincident_tick
    (tl : List TimedNote) (s t : ℕ) (m n : QNote) (arr : List ℕ)
    (hdur : ∀ x ∈ qnotes tl, 0 ≤ x.dur)
    (hm : retainedAt (qnotes tl) (s : ℤ) = some m)
    (hn : retainedAt (qnotes tl) (t : ℤ) = some n)
    (hst : s < t)
    (hcoin : (s : ℤ) + m.dur = (t : ℤ))
    (hd1 : 1 ≤ n.dur)
    (ht : t < totalTicks tl)
    (h : streamToNoteArray tl = .ok arr) :
    arr.get? t = some n.pitch :=
  (encode_at_tick hdur hn ht h).2 hd1

/-- Witness for `later_onset_wins_at_coincident_tick`: two abutting
quarter-tick notes; the off tick of the first is the onset of the second,
and the encoded array shows the second pitch there. -/
theorem later_onset_wins_at_coincident_tick_witness :
    ([60, 62, 128] : List ℕ).get? 1 = some (⟨1, 1, 62⟩ : QNote).pitch := by
  have hq : qnotes [⟨0, 1/4, 60⟩, ⟨1/4, 1/4, 62⟩] = [⟨0, 1, 60⟩, ⟨1, 1, 62⟩] := by
    norm_num [qnotes, toQNote, quantize, gridUnit, roundHalfEven, Int.fract]
  have htt : totalTicks [⟨0, 1/4, 60⟩, ⟨1/4, 1/4, 62⟩] = 2 :=
    totalTicks_eq (by norm_num [highestTime, quantize, gridUnit, roundHalfEven, Int.fract, max_def])
  refine later_onset_wins_at_coincident_tick [⟨0, 1/4, 60⟩, ⟨1/4, 1/4, 62⟩]
    0 1 ⟨0, 1, 60⟩ ⟨1, 1, 62⟩ _ ?_ ?_ ?_ ?_ ?_ ?_ ?_ ?_
  · rw [hq]
    decide
  · rw [hq]
    decide
  · rw [hq]
    decide
  · decide
  · decide
  · decide
  · rw [htt]
    decide
  · simp only [streamToNoteArray, hq, htt]
    rfl

/-- Claim C9, counterexample: the timeline (0,1/4,60), (1/4,1/10,62),
(1/2,1/4,64) makes the first note's NOTE_OFF tick (1) coincide with the
second retained note's onset tick, but the second note's duration
quantizes to 0 ticks, so the output at tick 1 is 128 — not the later
note's pitch 62 as the claim states. -/
theorem note_off_coincidence_counterexample :
    streamToNoteArray [⟨0, 1/4, 60⟩, ⟨1/4, 1/10, 62⟩, ⟨1/2, 1/4, 64⟩] =
        .ok [60, 128, 64, 128] ∧
      retainedAt (qnotes [⟨0, 1/4, 60⟩, ⟨1/4, 1/10, 62⟩, ⟨1/2, 1/4, 64⟩]) 0 =
        some ⟨0, 1, 60⟩ ∧
      retainedAt (qnotes [⟨0, 1/4, 60⟩, ⟨1/4, 1/10, 62⟩, ⟨1/2, 1/4, 64⟩]) 1 =
        some ⟨1, 0, 62⟩ ∧
      ([60, 128, 64, 128] : List ℕ).get? 1 ≠ some 62 := by
  have hq : qnotes [⟨0, 1/4, 60⟩, ⟨1/4, 1/10, 62⟩, ⟨1/2, 1/4, 64⟩] =
      [⟨0, 1, 60⟩, ⟨1, 0, 62⟩, ⟨2, 1, 64⟩] := by
    norm_num [qnotes, toQNote, quantize, gridUnit, roundHalfEven, Int.fract]
  have htt : totalTicks [⟨0, 1/4, 60⟩, ⟨1/4, 1/10, 62⟩, ⟨1/2, 1/4, 64⟩] = 3 :=
    totalTicks_eq (by norm_num [highestTime, quantize, gridUnit, roundHalfEven, Int.fract, max_def])
  refine ⟨?_, ?_, ?_, ?_⟩
  · simp only [streamToNoteArray, hq, htt]
    rfl
  · rw [hq]
    decide
  · rw [hq]
    decide
  · decide

/-- Claim C7: decoded row i carries duration
(originalIndex[i+1] - originalIndex[i]) * 0.25 when a following retained
row exists, and exactly 0.25 when row i is the last row. -/
theorem decoder_row_durations (arr : List ℕ) (i : ℕ) (r : ℕ × ℚ)
    (h : (noteArrayToDataFrame arr).get? i = some r) :
    (∀ a b, (retainedEvents arr).get? i = some a →
        (retainedEvents arr).get? (i + 1) = some b →
        r.2 = ((b.1 : ℚ) - (a.1 : ℚ)) * gridUnit) ∧
    ((retainedEvents arr).get? (i + 1) = none → r.2 = gridUnit) := by
  rcases rowsWithDur_get _ i r h with ⟨a, b, ha, hb, hr⟩ | ⟨a, ha, hb, hr⟩
  · constructor
    · intro x y hx hy
      rw [ha] at hx
      rw [hb] at hy
      injection hx with hx
      injection hy with hy
      subst hx
      subst hy
      rw [hr]
      simp [gridUnit]
    · intro hnone
      rw [hb] at hnone
      exact Option.noConfusion hnone
  · constructor
    · intro x y hx hy
      rw [hb] at hy
      exact Option.noConfusion hy
    · intro _
      rw [hr]
      simp [gridUnit]

/-- Witness for `decoder_row_durations` at the sequence [60, 129, 128]:
the first row spans from index 0 to index 2 and gets duration 1/2. -/
theorem decoder_row_durations_witness :
    ((60 : ℕ), (1/2 : ℚ)).2 = (((2 : ℕ) : ℚ) - ((0 : ℕ) : ℚ)) * gridUnit := by
  have h : (noteArrayToDataFrame [60, 129, 128]).get? 0 = some (60, 1/2) := by
    norm_num [noteArrayToDataFrame, retainedEvents, rowsWithDur, List.enum,
      List.enumFrom, List.filter, MELODY_NO_EVENT]
  have ha : (retainedEvents [60, 129, 128]).get? 0 = some (0, 60) := by
    norm_num [retainedEvents, List.enum, List.enumFrom, List.filter, MELODY_NO_EVENT]
  have hb : (retainedEvents [60, 129, 128]).get? 1 = some (2, 128) := by
    norm_num [retainedEvents, List.enum, List.enumFrom, List.filter, MELODY_NO_EVENT]
  exact (decoder_row_durations [60, 129, 128] 0 (60, 1/2) h).1 (0, 60) (2, 128) ha hb

/-- Claim C10: every decoded row has a strictly positive duration, a
positive multiple of the grid unit and hence at least 0.25. -/
theorem decoder_durations_positive (arr : List ℕ) (r : ℕ × ℚ)
    (h : r ∈ noteArrayToDataFrame arr) :
    gridUnit ≤ r.2 ∧ ∃ k : ℕ, 0 < k ∧ r.2 = (k : ℚ) * gridUnit := by
  have hres := rowsWithDur_pos (retainedEvents arr) (retainedEvents_pairwise arr) r h
  simpa [gridUnit] using hres

/-- Witness for `decoder_durations_positive` at the one-event sequence
[60]: its single row has duration exactly one grid unit. -/
theorem decoder_durations_positive_witness :
    gridUnit ≤ ((60 : ℕ), (1/4 : ℚ)).2 ∧
      ∃ k : ℕ, 0 < k ∧ ((60 : ℕ), (1/4 : ℚ)).2 = (k : ℚ) * gridUnit := by
  have hmem : ((60 : ℕ), (1/4 : ℚ)) ∈ noteArrayToDataFrame [60] := by
    have heq : noteArrayToDataFrame [60] = [(60, 1/4)] := by
      norm_num [noteArrayToDataFrame, retainedEvents, rowsWithDur, List.enum,
        List.enumFrom, List.filter, MELODY_NO_EVENT]
    rw [heq]
    exact List.mem_singleton.mpr rfl
  exact decoder_durations_positive [60] (60, 1/4) hmem

/-- Claim C8: an unrecognized layer kind never makes the compressor fail —
its entry carries only `class_name` and no `config` key — while every
recognized kind's successful output carries a `config` object whose keys
are exactly the documented parameter keys for that kind. -/
theorem compress_config_whitelist (l : FullLayer) :
    (specParamKeys l.class_name = none →
      compressLayer l = .ok (Json.obj [("class_name", Json.str l.class_name)])) ∧
    (∀ keys out, specParamKeys l.class_name = some keys → compressLayer l = .ok out →
      ∃ kvs, out = Json.obj [("class_name", Json.str l.class_name),
          ("config", Json.obj kvs)] ∧ kvs.map Prod.fst = keys) := by
  constructor
  · intro hnone
    unfold specParamKeys at hnone
    split_ifs at hnone with h1 h2 h3 h4 h5 h6 h7 h8
    simp [compressLayer, h1, h2, h3, h4, h5, h6, h7, h8]
    rfl
  · intro keys out hk hok
    unfold specParamKeys at hk
    unfold compressLayer at hok
    split_ifs at hk with h1 h2 h3 h4 h5 h6 h7 h8
    · injection hk with hk
      subst hk
      rw [if_pos h1] at hok
      obtain ⟨v1, hv1, hok⟩ := exc_bind_eq_ok hok
      injection hok with hok
      exact ⟨_, hok.symm, rfl⟩
    · injection hk with hk
      subst hk
      rw [if_neg h1, if_pos h2] at hok
      obtain ⟨v1, hv1, hok⟩ := exc_bind_eq_ok hok
      obtain ⟨v2, hv2, hok⟩ := exc_bind_eq_ok hok
      injection hok with hok
      exact ⟨_, hok.symm, rfl⟩
    · injection hk with hk
      subst hk
      rw [if_neg h1, if_neg h2, if_pos h3] at hok
      obtain ⟨v1, hv1, hok⟩ := exc_bind_eq_ok hok
      obtain ⟨v2, hv2, hok⟩ := exc_bind_eq_ok hok
      injection hok with hok
      exact ⟨_, hok.symm, rfl⟩
    · injection hk with hk
      subst hk
      rw [if_neg h1, if_neg h2, if_neg h3, if_pos h4] at hok
      obtain ⟨v1, hv1, hok⟩ := exc_bind_eq_ok hok
      obtain ⟨v2, hv2, hok⟩ := exc_bind_eq_ok hok
      obtain ⟨v3, hv3, hok⟩ := exc_bind_eq_ok hok
      obtain ⟨v4, hv4, hok⟩ := exc_bind_eq_ok hok
      obtain ⟨v5, hv5, hok⟩ := exc_bind_eq_ok hok
      injection hok with hok
      exact ⟨_, hok.symm, rfl⟩
    · injection hk with hk
      subst hk
      rw [if_neg h1, if_neg h2, if_neg h3, if_neg h4, if_pos h5] at hok
      obtain ⟨v1, hv1, hok⟩ := exc_bind_eq_ok hok
      obtain ⟨v2, hv2, hok⟩ := exc_bind_eq_ok hok
      obtain ⟨v3, hv3, hok⟩ := exc_bind_eq_ok hok
      injection hok with hok
      exact ⟨_, hok.symm, rfl⟩
    · injection hk with hk
      subst hk
      rw [if_neg h1, if_neg h2, if_neg h3, if_neg h4, if_neg h5, if_pos h6] at hok
      obtain ⟨v1, hv1, hok⟩ := exc_bind_eq_ok hok
      obtain ⟨v2, hv2, hok⟩ := exc_bind_eq_ok hok
      injection hok with hok
      exact ⟨_, hok.symm, rfl⟩
    · injection hk with hk
      subst hk
      rw [if_neg h1, if_neg h2, if_neg h3, if_neg h4, if_neg h5, if_neg h6, if_pos h7] at hok
      obtain ⟨v1, hv1, hok⟩ := exc_bind_eq_ok hok
      obtain ⟨v2, hv2, hok⟩ := exc_bind_eq_ok hok
      injection hok with hok
      exact ⟨_, hok.symm, rfl⟩
    · injection hk with hk
      subst hk
      rw [if_neg h1, if_neg h2, if_neg h3, if_neg h4, if_neg h5, if_neg h6, if_neg h7, if_pos h8] at hok
      obtain ⟨v1, hv1, hok⟩ := exc_bind_eq_ok hok
      obtain ⟨v2, hv2, hok⟩ := exc_bind_eq_ok hok
      obtain ⟨v3, hv3, hok⟩ := exc_bind_eq_ok hok
      injection hok with hok
      exact ⟨_, hok.symm, rfl⟩

/-- Witness for `compress_config_whitelist`: a concrete Dense layer's
compressed entry carries exactly the keys units and activation. -/
theorem compress_config_whitelist_witness :
    ∃ kvs, Json.obj [("class_name", Json.str "Dense"),
        ("config", Json.obj [("units", Json.num 5),
          ("activation", Json.str "softmax")])] =
      Json.obj [("class_name", Json.str "Dense"), ("config", Json.obj kvs)] ∧
      kvs.map Prod.fst = ["units", "activation"] :=
  (compress_config_whitelist ⟨"Dense", [("units", Json.num 5),
      ("activation", Json.str "softmax")]⟩).2
    ["units", "activation"]
    (Json.obj [("class_name", Json.str "Dense"),
      ("config", Json.obj [("units", Json.num 5),
        ("activation", Json.str "softmax")])])
    rfl rfl

/-- A concrete layer list for the export examples: one Dense layer. -/
def layersEx : List FullLayer :=
  [⟨"Dense", [("units", Json.num 5), ("activation", Json.str "softmax")]⟩]

/-- The compressed-config object the export of `layersEx` stores under
the artifact key `layers_config`. -/
def layersConfigEx : Json :=
  Json.obj [("config", Json.obj [("layers", Json.arr
    [Json.obj [("class_name", Json.str "Dense"),
      ("config", Json.obj [("units", Json.num 5),
        ("activation", Json.str "softmax")])]])])]

/-- Claim C1, counterexample: at a concrete export, the value stored under
"layers_config" is `{"config": {"layers": [...]}}` — its only top-level
key is "config" and a lookup of "layers" at its top level fails, so the
layers array is not directly inside `layers_config` as the claim states. -/
theorem export_layers_config_nested_counterexample :
    get_model_for_export [[[PyVal.fin 1]]] layersEx (fun _ => "QUJDRA") =
        .ok (Json.obj [("model_name", Json.str "musicnetgen"),
          ("layers_config", layersConfigEx),
          ("weight_b64", Json.str "QUJDRA")]) ∧
      objKeys layersConfigEx = some ["config"] ∧
      jLookup layersConfigEx "layers" = none :=
  ⟨rfl, rfl, rfl⟩

/-- Claim C1 as amended: every successful export artifact is a JSON object
with exactly the three keys model_name, layers_config and weight_b64, but
layers_config holds the compressed config object
`{"config": {"layers": [...]}}` — the layers array sits under an
intervening "config" key rather than at the top level of layers_config. -/
theorem export_artifact_layout (weights : List (List (List PyVal)))
    (layers : List FullLayer) (b64 : List PyVal → String) (j : Json)
    (h : get_model_for_export weights layers b64 = .ok j) :
    ∃ buf ls, packWeights weights = .ok buf ∧
      layers.mapM compressLayer = .ok ls ∧
      j = Json.obj [("model_name", Json.str "musicnetgen"),
        ("layers_config", Json.obj [("config", Json.obj [("layers", Json.arr ls)])]),
        ("weight_b64", Json.str (b64 buf))] := by
  unfold get_model_for_export at h
  obtain ⟨buf, hbuf, h2⟩ := exc_bind_eq_ok h
  obtain ⟨comp, hcomp, h3⟩ := exc_bind_eq_ok h2
  unfold compressConfig at hcomp
  obtain ⟨ls, hls, hpure⟩ := exc_bind_eq_ok hcomp
  injection hpure with hpure
  subst hpure
  injection h3 with h3
  exact ⟨buf, ls, hbuf, hls, h3.symm⟩

/-- Witness for `export_artifact_layout` at a concrete export. -/
theorem export_artifact_layout_witness :
    ∃ buf ls, packWeights [[[PyVal.fin 1]]] = .ok buf ∧
      layersEx.mapM compressLayer = .ok ls ∧
      Json.obj [("model_name", Json.str "musicnetgen"),
          ("layers_config", layersConfigEx),
          ("weight_b64", Json.str "QUJDRA")] =
        Json.obj [("model_name", Json.str "musicnetgen"),
          ("layers_config", Json.obj [("config", Json.obj [("layers", Json.arr ls)])]),
          ("weight_b64", Json.str "QUJDRA")] :=
  export_artifact_layout [[[PyVal.fin 1]]] layersEx (fun _ => "QUJDRA")
    (Json.obj [("model_name", Json.str "musicnetgen"),
      ("layers_config", layersConfigEx),
      ("weight_b64", Json.str "QUJDRA")]) rfl
